import Mathlib

/-!
# Verification of the vibe-palette color utilities

Shallow embedding of `src/lib/colorUtils.ts`.  JavaScript strings are
modelled as lists of UTF-16 code units (`List ℕ`; every string handled by
the library is ASCII), JavaScript numbers as exact rationals (`ℚ`), and
`Math.round` as `⌊x + 1/2⌋` (JS rounds half toward +∞).
-/

namespace VibePalette

/-- JS `Math.round x`: round half toward positive infinity. -/
def jround (x : ℚ) : ℤ := ⌊x + 1/2⌋

/-- Code units of a Lean string literal, for writing the JS string constants. -/
def jstr (s : String) : List ℕ := s.toList.map Char.toNat

/-- Code units removed by JS `String.prototype.trim` (whitespace and line terminators). -/
def isJsSpace (c : ℕ) : Bool :=
  c = 9 || c = 10 || c = 11 || c = 12 || c = 13 || c = 32 || c = 160 ||
    c = 8232 || c = 8233 || c = 65279

/-- JS `input.trim()`: drop whitespace from both ends. -/
def trimList (l : List ℕ) : List ℕ :=
  ((l.dropWhile isJsSpace).reverse.dropWhile isJsSpace).reverse

/-- Membership in the regex character class `[0-9A-Fa-f]`. -/
def isHexDigit (c : ℕ) : Bool :=
  (48 ≤ c && c ≤ 57) || (65 ≤ c && c ≤ 70) || (97 ≤ c && c ≤ 102)

/-- JS `toUpperCase` on one code unit (all inputs in this library are ASCII). -/
def jsToUpper (c : ℕ) : ℕ := if 97 ≤ c && c ≤ 122 then c - 32 else c

/-- `normalizeHex`: validate and normalize a hex color code.
Accepts `#RGB`, `#RRGGBB`, `RGB`, `RRGGBB` (code unit 35 is the hash sign);
returns the canonical hash-plus-six-uppercase-digits form or none. -/
def normalizeHex (input : List ℕ) : Option (List ℕ) :=
  let hex0 := trimList input
  let hex1 := if hex0.head? = some 35 then hex0.tail else hex0
  if hex1.isEmpty || !hex1.all isHexDigit then none
  else
    let hex2 := if hex1.length = 3 then hex1.flatMap (fun c => [c, c]) else hex1
    if hex2.length ≠ 6 then none
    else some (35 :: hex2.map jsToUpper)

/-- Value of one hex digit, as `parseInt(_, 16)` reads it. -/
def hexVal (c : ℕ) : ℕ :=
  if 48 ≤ c && c ≤ 57 then c - 48
  else if 65 ≤ c && c ≤ 70 then c - 55
  else if 97 ≤ c && c ≤ 102 then c - 87
  else 0

/-- `parseInt(s, 16)` on a string of hex digits. -/
def parseHex16 (l : List ℕ) : ℕ := l.foldl (fun a c => 16 * a + hexVal c) 0

/-- A code unit of the canonical normalized form: a decimal digit or an
uppercase hex letter. -/
def isUpperHexDigit (c : ℕ) : Bool :=
  (48 ≤ c && c ≤ 57) || (65 ≤ c && c ≤ 70)

/-- An RGB triple as produced by the converters (JS numbers, integral here). -/
structure Rgb where
  r : ℤ
  g : ℤ
  b : ℤ
deriving DecidableEq

/-- An HSL triple as produced by `rgbToHsl` (rounded to integers). -/
structure Hsl where
  h : ℤ
  s : ℤ
  l : ℤ
deriving DecidableEq

/-- `hexToRgb`: normalize, then parse the three two-digit slices. -/
def hexToRgb (hex : List ℕ) : Option Rgb :=
  match normalizeHex hex with
  | none => none
  | some normalized =>
    let hexValue := normalized.drop 1
    some ⟨(parseHex16 (hexValue.take 2) : ℤ),
          (parseHex16 ((hexValue.drop 2).take 2) : ℤ),
          (parseHex16 ((hexValue.drop 4).take 2) : ℤ)⟩

/-- The hue and saturation fractions computed inside `rgbToHsl` on the
0..1-scaled channels (the `h` and `s` mutable locals of the source). -/
def hslFrac (r g b : ℚ) : ℚ × ℚ :=
  let mx := max r (max g b)
  let mn := min r (min g b)
  let l := (mx + mn) / 2
  if mx = mn then (0, 0)
  else
    let d := mx - mn
    let s := if l > 1/2 then d / (2 - mx - mn) else d / (mx + mn)
    let h :=
      if mx = r then ((g - b) / d + (if g < b then 6 else 0)) / 6
      else if mx = g then ((b - r) / d + 2) / 6
      else ((r - g) / d + 4) / 6
    (h, s)

/-- `rgbToHsl`: RGB (0..255 scale) to HSL, each component rounded to an integer. -/
def rgbToHsl (r0 g0 b0 : ℚ) : Hsl :=
  let r := r0 / 255
  let g := g0 / 255
  let b := b0 / 255
  let mx := max r (max g b)
  let mn := min r (min g b)
  let l := (mx + mn) / 2
  let hs := hslFrac r g b
  ⟨jround (hs.1 * 360), jround (hs.2 * 100), jround (l * 100)⟩

/-- The `hue2rgb` helper inside `hslToRgb`, with its sequential wrap-around. -/
def hue2rgb (p q t0 : ℚ) : ℚ :=
  let t1 := if t0 < 0 then t0 + 1 else t0
  let t := if t1 > 1 then t1 - 1 else t1
  if t < 1/6 then p + (q - p) * 6 * t
  else if t < 1/2 then q
  else if t < 2/3 then p + (q - p) * (2/3 - t) * 6
  else p

/-- `hslToRgb`: HSL (degrees / percent scale) to RGB, rounded to integers. -/
def hslToRgb (h0 s0 l0 : ℚ) : Rgb :=
  let h := h0 / 360
  let s := s0 / 100
  let l := l0 / 100
  let c : ℚ × ℚ × ℚ :=
    if s = 0 then (l, l, l)
    else
      let q := if l < 1/2 then l * (1 + s) else l + s - l * s
      let p := 2 * l - q
      (hue2rgb p q (h + 1/3), hue2rgb p q h, hue2rgb p q (h - 1/3))
  ⟨jround (c.1 * 255), jround (c.2.1 * 255), jround (c.2.2 * 255)⟩

/-- Lowercase hex digit code unit, as `Number.prototype.toString(16)` emits. -/
def hexDigitChar (d : ℕ) : ℕ := if d < 10 then 48 + d else 87 + d

/-- The `toHex` helper of `rgbToHex`: clamp to [0,255], render in base 16,
pad to two digits. -/
def toHexByte (n : ℚ) : List ℕ :=
  let m := (max 0 (min 255 (jround n))).toNat
  if m < 16 then [48, hexDigitChar m]
  else [hexDigitChar (m / 16), hexDigitChar (m % 16)]

/-- The value of `toHexByte` on an integral input (its rounding is a no-op
there); bridge for kernel evaluation. -/
def toHexByteZ (n : ℤ) : List ℕ :=
  let m := (max 0 (min 255 n)).toNat
  if m < 16 then [48, hexDigitChar m]
  else [hexDigitChar (m / 16), hexDigitChar (m % 16)]

/-- `rgbToHex`: hash sign plus three bytes, the whole template uppercased. -/
def rgbToHex (r g b : ℚ) : List ℕ :=
  (35 :: (toHexByte r ++ toHexByte g ++ toHexByte b)).map jsToUpper

/-- The fixed lightness schedule of `generateShades`. -/
def lightnessValues : List ℚ := [95, 85, 75, 65, 55, 45, 35, 25, 20, 15, 10, 5]

/-- `generateShades`: 12 shades of the input color, light to dark. -/
def generateShades (hex : List ℕ) : List (List ℕ) :=
  match hexToRgb hex with
  | none => []
  | some rgb =>
    let hsl := rgbToHsl (rgb.r : ℚ) (rgb.g : ℚ) (rgb.b : ℚ)
    lightnessValues.map (fun lightness =>
      let c := hslToRgb (hsl.h : ℚ) (hsl.s : ℚ) lightness
      rgbToHex (c.r : ℚ) (c.g : ℚ) (c.b : ℚ))

/-- The two brightness classes returned by `getColorBrightness`. -/
inductive Brightness where
  | light
  | dark
deriving DecidableEq

/-- Floor of the base-2 logarithm, by structural recursion on a fuel bound
(kernel-computable); the first argument is the fuel. -/
def log2Aux : ℕ → ℕ → ℕ
  | 0, _ => 0
  | f + 1, n => if n < 2 then 0 else log2Aux f (n / 2) + 1

/-- `log2Floor n = ⌊log₂ n⌋` for `n ≥ 1` (and 0 at 0). -/
def log2Floor (n : ℕ) : ℕ := log2Aux n n

/-- Round a positive rational to the nearest IEEE-754 binary64 value: find the
exponent e with 2^e ≤ q < 2^(e+1), scale to a 53-bit significand, round to
nearest with ties to even. Covers the normal range, ample for every value this
program computes. -/
def froundPos (q : ℚ) : ℚ :=
  let a := q.num.toNat
  let b := q.den
  let e0 : ℤ := (log2Floor a : ℤ) - (log2Floor b : ℤ)
  let lt : Bool :=
    if 0 ≤ e0 then decide (a < b <<< e0.toNat) else decide (a <<< (-e0).toNat < b)
  let e : ℤ := if lt then e0 - 1 else e0
  let s : ℤ := 52 - e
  let A : ℕ := if 0 ≤ s then a <<< s.toNat else a
  let B : ℕ := if 0 ≤ s then b else b <<< (-s).toNat
  let n := A / B
  let m : ℕ :=
    if B < 2 * (A % B) then n + 1
    else if 2 * (A % B) < B then n
    else if n % 2 = 0 then n else n + 1
  if 0 ≤ e - 52 then ((m <<< (e - 52).toNat : ℕ) : ℚ)
  else (m : ℚ) / ((1 <<< (52 - e).toNat : ℕ) : ℚ)

/-- IEEE-754 binary64 rounding of a rational, extended to all signs. -/
def fround (q : ℚ) : ℚ :=
  if q = 0 then 0 else if q < 0 then -froundPos (-q) else froundPos q

/-- The double-precision value of `(0.299*r + 0.587*g + 0.114*b) / 255` as the
JS engine computes it: the three literals are the binary64 values nearest
0.299, 0.587 and 0.114, the integer channels are exact, and every
multiplication, addition and the final division rounds to nearest. -/
def dblLuminance (r g b : ℤ) : ℚ :=
  let p1 := fround (fround (0.299) * (r : ℚ))
  let p2 := fround (fround (0.587) * (g : ℚ))
  let p3 := fround (fround (0.114) * (b : ℚ))
  fround (fround (fround (p1 + p2) + p3) / 255)

/-- `getColorBrightness`: weighted luminance against the 0.5 threshold. The
luminance is evaluated in IEEE-754 double precision (`dblLuminance`), exactly
as the engine does, so an exact-1/2 luminance can round to either side. -/
def getColorBrightness (hex : List ℕ) : Brightness :=
  match hexToRgb hex with
  | none => .dark
  | some rgb =>
    let luminance := dblLuminance rgb.r rgb.g rgb.b
    if luminance > 1/2 then .light else .dark

/-- The suggested role attached to each palette entry. -/
inductive Role where
  | primary
  | accent
  | background
  | text
  | other
deriving DecidableEq

/-- One entry of the generated palette. -/
structure PaletteEntry where
  hex : List ℕ
  label : List ℕ
  role : Role
deriving DecidableEq

/-- `generatePaletteFromBase`: five roles derived from a base color, with a
fixed fallback palette when the base fails to decode. -/
def generatePaletteFromBase (baseHex : List ℕ) : List PaletteEntry :=
  match hexToRgb baseHex with
  | none =>
    [⟨jstr (r"#3B82F6"), jstr (r"Primary"), .primary⟩,
     ⟨jstr (r"#10B981"), jstr (r"Accent"), .accent⟩,
     ⟨jstr (r"#F9FAFB"), jstr (r"Light Background"), .background⟩,
     ⟨jstr (r"#1F2937"), jstr (r"Dark Text"), .text⟩,
     ⟨jstr (r"#6366F1"), jstr (r"Secondary"), .other⟩]
  | some rgb =>
    let hsl := rgbToHsl (rgb.r : ℚ) (rgb.g : ℚ) (rgb.b : ℚ)
    let primary := baseHex
    let accentHsl : Hsl := ⟨(hsl.h + 180) % 360, hsl.s, hsl.l⟩
    let accentRgb := hslToRgb (accentHsl.h : ℚ) (accentHsl.s : ℚ) (accentHsl.l : ℚ)
    let accent := rgbToHex (accentRgb.r : ℚ) (accentRgb.g : ℚ) (accentRgb.b : ℚ)
    let backgroundHsl : ℚ × ℚ × ℚ := ((hsl.h : ℚ), max 10 ((hsl.s : ℚ) * 0.2), 95)
    let backgroundRgb := hslToRgb backgroundHsl.1 backgroundHsl.2.1 backgroundHsl.2.2
    let background := rgbToHex (backgroundRgb.r : ℚ) (backgroundRgb.g : ℚ) (backgroundRgb.b : ℚ)
    let textHsl : ℚ × ℚ × ℚ := ((hsl.h : ℚ), min 15 ((hsl.s : ℚ) * 0.3), 15)
    let textRgb := hslToRgb textHsl.1 textHsl.2.1 textHsl.2.2
    let text := rgbToHex (textRgb.r : ℚ) (textRgb.g : ℚ) (textRgb.b : ℚ)
    let secondaryHsl : ℚ × ℚ × ℚ :=
      ((((hsl.h + 30) % 360 : ℤ) : ℚ),
       max 40 (min 80 (hsl.s : ℚ)),
       max 35 (min 65 ((hsl.l : ℚ) + 10)))
    let secondaryRgb := hslToRgb secondaryHsl.1 secondaryHsl.2.1 secondaryHsl.2.2
    let secondary := rgbToHex (secondaryRgb.r : ℚ) (secondaryRgb.g : ℚ) (secondaryRgb.b : ℚ)
    [⟨primary, jstr (r"Primary"), .primary⟩,
     ⟨accent, jstr (r"Accent"), .accent⟩,
     ⟨background, jstr (r"Light Background"), .background⟩,
     ⟨text, jstr (r"Dark Text"), .text⟩,
     ⟨secondary, jstr (r"Secondary"), .other⟩]

section Verification

attribute [local semireducible] Rat.mul Rat.inv Rat.add Rat.sub Rat.ofScientific

lemma jround_nonneg {x : ℚ} (h : 0 ≤ x) : 0 ≤ jround x :=
  Int.floor_nonneg.mpr (by linarith)

lemma jround_le {x : ℚ} {k : ℤ} (h : x ≤ (k : ℚ)) : jround x ≤ k := by
  have h2 : x + 1/2 < ((k + 1 : ℤ) : ℚ) := by push_cast; linarith
  have h3 := Int.floor_lt.mpr h2
  unfold jround
  omega

lemma jround_intCast (n : ℤ) : jround ((n : ℚ)) = n := by
  unfold jround
  have h0 : ⌊(1/2 : ℚ)⌋ = 0 := by
    rw [Int.floor_eq_zero_iff]
    constructor <;> norm_num
  rw [Int.floor_int_add, h0, add_zero]

/-- C1: the claim that `hslToRgb (rgbToHsl rgb)` stays within ±1 per channel is
refuted at (2, 228, 230): the round trip yields (2, 223, 227). -/
theorem roundtrip_within_one_counterexample :
    ¬ (∀ r g b : ℕ, r ≤ 255 → g ≤ 255 → b ≤ 255 →
      (let hsl := rgbToHsl (r : ℚ) (g : ℚ) (b : ℚ)
       let back := hslToRgb (hsl.h : ℚ) (hsl.s : ℚ) (hsl.l : ℚ)
       (back.r - r) ^ 2 ≤ 1 ∧ (back.g - g) ^ 2 ≤ 1 ∧ (back.b - b) ^ 2 ≤ 1)) :=
  fun h => absurd (h 2 228 230 (by decide) (by decide) (by decide)) (by decide)

/-- C1 (amended): the round trip through integer-rounded HSL does not stay
within ±1 per channel; at (2, 228, 230) it returns (2, 223, 227), a green
drift of 5 and a blue drift of 3. -/
theorem roundtrip_drift_at_2_228_230 :
    rgbToHsl 2 228 230 = ⟨181, 98, 45⟩ ∧
    hslToRgb 181 98 45 = ⟨2, 223, 227⟩ ∧
    (228 - 223 : ℤ) = 5 ∧ (230 - 227 : ℤ) = 3 := by
  refine ⟨by decide, by decide, by decide, by decide⟩

/-- C3: the claim that the hue returned by `rgbToHsl` is always strictly below
360 is refuted at (255, 0, 1), whose hue fraction 1 - 1/1530 rounds to 360. -/
theorem rgbToHsl_hue_lt_360_counterexample :
    ¬ (∀ r g b : ℕ, r ≤ 255 → g ≤ 255 → b ≤ 255 →
      (rgbToHsl (r : ℚ) (g : ℚ) (b : ℚ)).h < 360) :=
  fun h => absurd (h 255 0 1 (by decide) (by decide) (by decide)) (by decide)

lemma hslFrac_snd_mem {x y z : ℚ} (hx0 : 0 ≤ x) (hx1 : x ≤ 1) (hy0 : 0 ≤ y) (hy1 : y ≤ 1)
    (hz0 : 0 ≤ z) (hz1 : z ≤ 1) : 0 ≤ (hslFrac x y z).2 ∧ (hslFrac x y z).2 ≤ 1 := by
  simp only [hslFrac]
  set mx := max x (max y z) with hmxdef
  set mn := min x (min y z) with hmndef
  have hmx1 : mx ≤ 1 := max_le hx1 (max_le hy1 hz1)
  have hmn0 : 0 ≤ mn := le_min hx0 (le_min hy0 hz0)
  have hmnx : mn ≤ mx := le_trans (min_le_left _ _) (le_max_left _ _)
  by_cases heq : mx = mn
  · rw [if_pos heq]
    norm_num
  · rw [if_neg heq]
    have hlt : mn < mx := lt_of_le_of_ne hmnx (fun e => heq e.symm)
    by_cases hl : (mx + mn) / 2 > 1/2
    · rw [if_pos hl]
      have hden : 0 < 2 - mx - mn := by linarith
      constructor
      · exact div_nonneg (by linarith) (le_of_lt hden)
      · rw [div_le_one hden]; linarith
    · rw [if_neg hl]
      have hden : 0 < mx + mn := by linarith
      constructor
      · exact div_nonneg (by linarith) (le_of_lt hden)
      · rw [div_le_one hden]; linarith

lemma hslFrac_fst_mem {x y z : ℚ} (hx0 : 0 ≤ x) (hx1 : x ≤ 1) (hy0 : 0 ≤ y) (hy1 : y ≤ 1)
    (hz0 : 0 ≤ z) (hz1 : z ≤ 1) : 0 ≤ (hslFrac x y z).1 ∧ (hslFrac x y z).1 < 1 := by
  simp only [hslFrac]
  set mx := max x (max y z) with hmxdef
  set mn := min x (min y z) with hmndef
  have hxmx : x ≤ mx := le_max_left _ _
  have hymx : y ≤ mx := le_trans (le_max_left _ _) (le_max_right _ _)
  have hzmx : z ≤ mx := le_trans (le_max_right _ _) (le_max_right _ _)
  have hmnx : mn ≤ x := min_le_left _ _
  have hmny : mn ≤ y := le_trans (min_le_right _ _) (min_le_left _ _)
  have hmnz : mn ≤ z := le_trans (min_le_right _ _) (min_le_right _ _)
  by_cases heq : mx = mn
  · rw [if_pos heq]; norm_num
  · rw [if_neg heq]
    have hlt : mn < mx := lt_of_le_of_ne (le_trans hmnx hxmx) (fun e => heq e.symm)
    have hd : 0 < mx - mn := by linarith
    by_cases h1 : mx = x
    · rw [if_pos h1]
      by_cases h2 : y < z
      · rw [if_pos h2]
        have hr1 : -1 ≤ (y - z) / (mx - mn) := by
          rw [le_div_iff hd]; linarith
        have hr2 : (y - z) / (mx - mn) < 0 := div_neg_of_neg_of_pos (by linarith) hd
        constructor <;> linarith
      · rw [if_neg h2]
        have hr1 : 0 ≤ (y - z) / (mx - mn) := div_nonneg (by linarith) (le_of_lt hd)
        have hr2 : (y - z) / (mx - mn) ≤ 1 := by rw [div_le_one hd]; linarith
        constructor <;> linarith
    · rw [if_neg h1]
      by_cases h2 : mx = y
      · rw [if_pos h2]
        have hr1 : -1 ≤ (z - x) / (mx - mn) := by rw [le_div_iff hd]; linarith
        have hr2 : (z - x) / (mx - mn) ≤ 1 := by rw [div_le_one hd]; linarith
        constructor <;> linarith
      · rw [if_neg h2]
        have hr1 : -1 ≤ (x - y) / (mx - mn) := by rw [le_div_iff hd]; linarith
        have hr2 : (x - y) / (mx - mn) ≤ 1 := by rw [div_le_one hd]; linarith
        constructor <;> linarith

/-- C3 (amended): for every RGB triple with channels in [0, 255], `rgbToHsl`
returns an integer hue in [0, 360] — the value 360 is reachable, since the hue
fraction is rounded after scaling — and integer saturation and lightness in
[0, 100]. -/
theorem rgbToHsl_component_ranges (r g b : ℕ) (hr : r ≤ 255) (hg : g ≤ 255) (hb : b ≤ 255) :
    0 ≤ (rgbToHsl (r : ℚ) (g : ℚ) (b : ℚ)).h ∧ (rgbToHsl (r : ℚ) (g : ℚ) (b : ℚ)).h ≤ 360 ∧
    0 ≤ (rgbToHsl (r : ℚ) (g : ℚ) (b : ℚ)).s ∧ (rgbToHsl (r : ℚ) (g : ℚ) (b : ℚ)).s ≤ 100 ∧
    0 ≤ (rgbToHsl (r : ℚ) (g : ℚ) (b : ℚ)).l ∧ (rgbToHsl (r : ℚ) (g : ℚ) (b : ℚ)).l ≤ 100 := by
  have hx0 : (0 : ℚ) ≤ (r : ℚ) / 255 := by positivity
  have hy0 : (0 : ℚ) ≤ (g : ℚ) / 255 := by positivity
  have hz0 : (0 : ℚ) ≤ (b : ℚ) / 255 := by positivity
  have hx1 : (r : ℚ) / 255 ≤ 1 := by
    rw [div_le_one (by norm_num)]; exact_mod_cast hr
  have hy1 : (g : ℚ) / 255 ≤ 1 := by
    rw [div_le_one (by norm_num)]; exact_mod_cast hg
  have hz1 : (b : ℚ) / 255 ≤ 1 := by
    rw [div_le_one (by norm_num)]; exact_mod_cast hb
  obtain ⟨hf0, hf1⟩ := hslFrac_fst_mem hx0 hx1 hy0 hy1 hz0 hz1
  obtain ⟨hs0, hs1⟩ := hslFrac_snd_mem hx0 hx1 hy0 hy1 hz0 hz1
  have hmx1 : max ((r : ℚ) / 255) (max ((g : ℚ) / 255) ((b : ℚ) / 255)) ≤ 1 :=
    max_le hx1 (max_le hy1 hz1)
  have hmn0 : 0 ≤ min ((r : ℚ) / 255) (min ((g : ℚ) / 255) ((b : ℚ) / 255)) :=
    le_min hx0 (le_min hy0 hz0)
  have hmx0 : (0 : ℚ) ≤ max ((r : ℚ) / 255) (max ((g : ℚ) / 255) ((b : ℚ) / 255)) :=
    le_trans hx0 (le_max_left _ _)
  have hmn1 : min ((r : ℚ) / 255) (min ((g : ℚ) / 255) ((b : ℚ) / 255)) ≤ 1 :=
    le_trans (min_le_left _ _) hx1
  simp only [rgbToHsl]
  refine ⟨?_, ?_, ?_, ?_, ?_, ?_⟩
  · exact jround_nonneg (by linarith)
  · refine jround_le (k := 360) ?_
    push_cast
    linarith
  · exact jround_nonneg (by linarith)
  · refine jround_le (k := 100) ?_
    push_cast
    linarith
  · exact jround_nonneg (by linarith)
  · refine jround_le (k := 100) ?_
    push_cast
    linarith

/-- Witness for `rgbToHsl_component_ranges` at the concrete triple
(255, 0, 1), where the hue actually attains 360. -/
theorem rgbToHsl_component_ranges_witness :
    0 ≤ (rgbToHsl ((255 : ℕ) : ℚ) ((0 : ℕ) : ℚ) ((1 : ℕ) : ℚ)).h ∧
    (rgbToHsl ((255 : ℕ) : ℚ) ((0 : ℕ) : ℚ) ((1 : ℕ) : ℚ)).h ≤ 360 ∧
    0 ≤ (rgbToHsl ((255 : ℕ) : ℚ) ((0 : ℕ) : ℚ) ((1 : ℕ) : ℚ)).s ∧
    (rgbToHsl ((255 : ℕ) : ℚ) ((0 : ℕ) : ℚ) ((1 : ℕ) : ℚ)).s ≤ 100 ∧
    0 ≤ (rgbToHsl ((255 : ℕ) : ℚ) ((0 : ℕ) : ℚ) ((1 : ℕ) : ℚ)).l ∧
    (rgbToHsl ((255 : ℕ) : ℚ) ((0 : ℕ) : ℚ) ((1 : ℕ) : ℚ)).l ≤ 100 :=
  rgbToHsl_component_ranges 255 0 1 (by decide) (by decide) (by decide)

lemma upperHex_not_space {c : ℕ} (h : isUpperHexDigit c = true) : isJsSpace c = false := by
  simp only [isUpperHexDigit, Bool.or_eq_true, Bool.and_eq_true, decide_eq_true_eq] at h
  simp only [isJsSpace, Bool.or_eq_false_iff, decide_eq_false_iff_not]
  omega

lemma upperHex_isHexDigit {c : ℕ} (h : isUpperHexDigit c = true) : isHexDigit c = true := by
  simp only [isUpperHexDigit, Bool.or_eq_true, Bool.and_eq_true, decide_eq_true_eq] at h
  simp only [isHexDigit, Bool.or_eq_true, Bool.and_eq_true, decide_eq_true_eq]
  omega

lemma upperHex_jsToUpper {c : ℕ} (h : isUpperHexDigit c = true) : jsToUpper c = c := by
  simp only [isUpperHexDigit, Bool.or_eq_true, Bool.and_eq_true, decide_eq_true_eq] at h
  unfold jsToUpper
  rw [if_neg]
  simp only [Bool.and_eq_true, decide_eq_true_eq]
  omega

lemma hexDigit_jsToUpper {c : ℕ} (h : isHexDigit c = true) :
    isUpperHexDigit (jsToUpper c) = true := by
  simp only [isHexDigit, Bool.or_eq_true, Bool.and_eq_true, decide_eq_true_eq] at h
  unfold jsToUpper
  simp only [isUpperHexDigit, Bool.or_eq_true, Bool.and_eq_true, decide_eq_true_eq]
  split <;> omega

lemma dropWhile_space_eq_self {l : List ℕ} (h : ∀ c ∈ l, isJsSpace c = false) :
    l.dropWhile isJsSpace = l := by
  cases l with
  | nil => rfl
  | cons a t =>
    rw [List.dropWhile_cons, if_neg]
    simp [h a (List.mem_cons_self a t)]

lemma trimList_eq_self {l : List ℕ} (h : ∀ c ∈ l, isJsSpace c = false) : trimList l = l := by
  unfold trimList
  rw [dropWhile_space_eq_self h,
    dropWhile_space_eq_self (fun c hc => h c (List.mem_reverse.mp hc)),
    List.reverse_reverse]

lemma normalizeHex_canonical {u : List ℕ} (hlen : u.length = 6)
    (hall : u.all isUpperHexDigit = true) : normalizeHex (35 :: u) = some (35 :: u) := by
  have hmem : ∀ c ∈ u, isUpperHexDigit c = true := by
    simpa only [List.all_eq_true] using hall
  have hnospace : ∀ c ∈ (35 :: u), isJsSpace c = false := by
    intro c hc
    rcases List.mem_cons.mp hc with h35 | hcu
    · subst h35; rfl
    · exact upperHex_not_space (hmem c hcu)
  have hhex : u.all isHexDigit = true := by
    simp only [List.all_eq_true]
    exact fun c hc => upperHex_isHexDigit (hmem c hc)
  have hne : u.isEmpty = false := by
    cases u with
    | nil => simp at hlen
    | cons a t => rfl
  have hmap : u.map jsToUpper = u := by
    have h1 : u.map jsToUpper = u.map id :=
      List.map_congr_left (fun a ha => upperHex_jsToUpper (hmem a ha))
    rw [h1, List.map_id]
  simp [normalizeHex, trimList_eq_self hnospace, hne, hhex, hlen, hmap]

lemma normalizeHex_shape {s t : List ℕ} (h : normalizeHex s = some t) :
    ∃ u, t = 35 :: u ∧ u.length = 6 ∧ u.all isUpperHexDigit = true := by
  simp only [normalizeHex] at h
  set hex1 := if (trimList s).head? = some 35 then (trimList s).tail else trimList s with h1
  by_cases hc1 : (hex1.isEmpty || !hex1.all isHexDigit) = true
  · rw [if_pos hc1] at h
    exact absurd h (by simp)
  · rw [if_neg hc1] at h
    set hex2 := if hex1.length = 3 then hex1.flatMap (fun c => [c, c]) else hex1 with h2
    by_cases hc2 : hex2.length ≠ 6
    · rw [if_pos hc2] at h
      exact absurd h (by simp)
    · rw [if_neg hc2] at h
      have ht : t = 35 :: hex2.map jsToUpper := by
        injection h with h'
        exact h'.symm
      have hall1 : hex1.all isHexDigit = true := by
        simp only [Bool.or_eq_true, Bool.not_eq_true'] at hc1
        push_neg at hc1
        rcases Bool.eq_false_or_eq_true (hex1.all isHexDigit) with htr | hf
        · exact htr
        · exact absurd hf hc1.2
      have hall2 : hex2.all isHexDigit = true := by
        rw [h2]
        by_cases h3 : hex1.length = 3
        · rw [if_pos h3]
          rw [List.all_flatMap]
          simp only [List.all_eq_true] at hall1 ⊢
          intro c hc
          have hhc := hall1 c hc
          simp [hhc]
        · rw [if_neg h3]
          exact hall1
      refine ⟨hex2.map jsToUpper, ht, ?_, ?_⟩
      · rw [List.length_map]
        omega
      · simp only [List.all_eq_true] at hall2 ⊢
        intro c hc
        obtain ⟨a, ha, rfl⟩ := List.mem_map.mp hc
        exact hexDigit_jsToUpper (hall2 a ha)

lemma normalizeHex_fix {s t : List ℕ} (h : normalizeHex s = some t) :
    normalizeHex t = some t := by
  obtain ⟨u, rfl, hlen, hall⟩ := normalizeHex_shape h
  exact normalizeHex_canonical hlen hall

/-- C9: `normalizeHex` is idempotent — whenever it succeeds its output is a
fixed point — and it returns an already-canonical value (hash sign plus six
uppercase hex digits) unchanged. -/
theorem normalizeHex_idempotent :
    (∀ s t : List ℕ, normalizeHex s = some t → normalizeHex t = some t) ∧
    (∀ u : List ℕ, u.length = 6 → u.all isUpperHexDigit = true →
      normalizeHex (35 :: u) = some (35 :: u)) :=
  ⟨fun _ _ h => normalizeHex_fix h, fun _ hl ha => normalizeHex_canonical hl ha⟩

/-- Witness for `normalizeHex_idempotent`: re-normalizing the output produced
for " 3b8 " is a no-op, and the canonical "#ABCDEF" is returned unchanged. -/
theorem normalizeHex_idempotent_witness :
    normalizeHex (jstr (r"#33BB88")) = some (jstr (r"#33BB88")) ∧
    normalizeHex (35 :: jstr (r"ABCDEF")) = some (35 :: jstr (r"ABCDEF")) := by
  constructor
  · exact normalizeHex_idempotent.1 (jstr (r" 3b8 ")) (jstr (r"#33BB88")) (by decide)
  · exact normalizeHex_idempotent.2 (jstr (r"ABCDEF")) (by decide) (by decide)

/-- C10: whenever `normalizeHex` accepts a string, `hexToRgb` decodes the
raw string, succeeds, and agrees with the decode of the canonical form. -/
theorem hexToRgb_normalize_agree (s t : List ℕ) (h : normalizeHex s = some t) :
    hexToRgb s = hexToRgb t ∧ (hexToRgb s).isSome = true := by
  have ht := normalizeHex_fix h
  unfold hexToRgb
  rw [h, ht]
  exact ⟨rfl, rfl⟩

/-- Witness for `hexToRgb_normalize_agree` at the un-normalized input
" 3b82f6 ", whose canonical form is "#3B82F6". -/
theorem hexToRgb_normalize_agree_witness :
    hexToRgb (jstr (r" 3b82f6 ")) = hexToRgb (jstr (r"#3B82F6")) ∧
    (hexToRgb (jstr (r" 3b82f6 "))).isSome = true :=
  hexToRgb_normalize_agree (jstr (r" 3b82f6 ")) (jstr (r"#3B82F6")) (by decide)

lemma toHexByte_intCast (n : ℤ) : toHexByte ((n : ℚ)) = toHexByteZ n := by
  unfold toHexByte toHexByteZ
  rw [jround_intCast]

set_option maxRecDepth 4000 in
lemma byteSpec : ∀ m : Fin 256,
    ((toHexByteZ ((m.val : ℕ) : ℤ)).map jsToUpper).length = 2 ∧
    ((toHexByteZ ((m.val : ℕ) : ℤ)).map jsToUpper).all isUpperHexDigit = true ∧
    parseHex16 ((toHexByteZ ((m.val : ℕ) : ℤ)).map jsToUpper) = m.val := by decide

/-- C2: encoding any integer RGB triple with `rgbToHex` and decoding with
`hexToRgb` returns exactly the original triple. -/
theorem hexToRgb_rgbToHex (r g b : ℤ) (hr0 : 0 ≤ r) (hr1 : r ≤ 255) (hg0 : 0 ≤ g)
    (hg1 : g ≤ 255) (hb0 : 0 ≤ b) (hb1 : b ≤ 255) :
    hexToRgb (rgbToHex (r : ℚ) (g : ℚ) (b : ℚ)) = some ⟨r, g, b⟩ := by
  have er : ((r.toNat : ℕ) : ℤ) = r := Int.toNat_of_nonneg hr0
  have eg : ((g.toNat : ℕ) : ℤ) = g := Int.toNat_of_nonneg hg0
  have eb : ((b.toNat : ℕ) : ℤ) = b := Int.toNat_of_nonneg hb0
  have hrS : ((toHexByteZ ((r.toNat : ℕ) : ℤ)).map jsToUpper).length = 2 ∧
      ((toHexByteZ ((r.toNat : ℕ) : ℤ)).map jsToUpper).all isUpperHexDigit = true ∧
      parseHex16 ((toHexByteZ ((r.toNat : ℕ) : ℤ)).map jsToUpper) = r.toNat :=
    byteSpec ⟨r.toNat, by omega⟩
  have hgS : ((toHexByteZ ((g.toNat : ℕ) : ℤ)).map jsToUpper).length = 2 ∧
      ((toHexByteZ ((g.toNat : ℕ) : ℤ)).map jsToUpper).all isUpperHexDigit = true ∧
      parseHex16 ((toHexByteZ ((g.toNat : ℕ) : ℤ)).map jsToUpper) = g.toNat :=
    byteSpec ⟨g.toNat, by omega⟩
  have hbS : ((toHexByteZ ((b.toNat : ℕ) : ℤ)).map jsToUpper).length = 2 ∧
      ((toHexByteZ ((b.toNat : ℕ) : ℤ)).map jsToUpper).all isUpperHexDigit = true ∧
      parseHex16 ((toHexByteZ ((b.toNat : ℕ) : ℤ)).map jsToUpper) = b.toNat :=
    byteSpec ⟨b.toNat, by omega⟩
  rw [er] at hrS
  rw [eg] at hgS
  rw [eb] at hbS
  obtain ⟨a1, a2, ha⟩ := List.length_eq_two.mp hrS.1
  obtain ⟨d1, d2, hd⟩ := List.length_eq_two.mp hgS.1
  obtain ⟨e1, e2, he⟩ := List.length_eq_two.mp hbS.1
  have hhex : rgbToHex (r : ℚ) (g : ℚ) (b : ℚ) =
      35 :: ([a1, a2] ++ ([d1, d2] ++ [e1, e2])) := by
    simp only [rgbToHex, toHexByte_intCast, List.map_cons, List.map_append, ha, hd, he]
    rfl
  have hu6 : (([a1, a2] ++ ([d1, d2] ++ [e1, e2])) : List ℕ).length = 6 := by simp
  have huall : (([a1, a2] ++ ([d1, d2] ++ [e1, e2])) : List ℕ).all isUpperHexDigit = true := by
    simp only [List.all_append, Bool.and_eq_true]
    refine ⟨?_, ?_, ?_⟩
    · rw [← ha]; exact hrS.2.1
    · rw [← hd]; exact hgS.2.1
    · rw [← he]; exact hbS.2.1
  have hnorm : normalizeHex (rgbToHex (r : ℚ) (g : ℚ) (b : ℚ)) =
      some (35 :: ([a1, a2] ++ ([d1, d2] ++ [e1, e2]))) := by
    rw [hhex]
    exact normalizeHex_canonical hu6 huall
  simp only [hexToRgb, hnorm]
  show some (⟨(parseHex16 [a1, a2] : ℤ), (parseHex16 [d1, d2] : ℤ),
    (parseHex16 [e1, e2] : ℤ)⟩ : Rgb) = some ⟨r, g, b⟩
  have p1 : parseHex16 [a1, a2] = r.toNat := by rw [← ha]; exact hrS.2.2
  have p2 : parseHex16 [d1, d2] = g.toNat := by rw [← hd]; exact hgS.2.2
  have p3 : parseHex16 [e1, e2] = b.toNat := by rw [← he]; exact hbS.2.2
  rw [p1, p2, p3, er, eg, eb]

/-- Witness for `hexToRgb_rgbToHex` at the triple (59, 130, 246), whose hex
form is "#3B82F6". -/
theorem hexToRgb_rgbToHex_witness :
    hexToRgb (rgbToHex ((59 : ℤ) : ℚ) ((130 : ℤ) : ℚ) ((246 : ℤ) : ℚ)) =
      some ⟨59, 130, 246⟩ :=
  hexToRgb_rgbToHex 59 130 246 (by decide) (by decide) (by decide) (by decide)
    (by decide) (by decide)

/-- C4: the claim that the first palette entry's hex equals the *normalized*
input is refuted by the accepted un-normalized input "3b82f6": the primary
entry keeps the raw input string, not its canonical form. -/
theorem palette_primary_normalized_counterexample :
    normalizeHex (jstr (r"3b82f6")) = some (jstr (r"#3B82F6")) ∧
    (generatePaletteFromBase (jstr (r"3b82f6"))).head?.map PaletteEntry.hex =
      some (jstr (r"3b82f6")) ∧
    jstr (r"3b82f6") ≠ jstr (r"#3B82F6") := by
  refine ⟨by decide, by decide, by decide⟩

/-- C4 (amended): for every input accepted by the decoder, the first entry of
`generatePaletteFromBase` has role `primary` and carries the input string
exactly as passed; it equals the normalized form only when the input is
already canonical. -/
theorem palette_primary_is_input (s : List ℕ) (rgb : Rgb) (h : hexToRgb s = some rgb) :
    (generatePaletteFromBase s).head? = some ⟨s, jstr (r"Primary"), Role.primary⟩ := by
  simp only [generatePaletteFromBase, h, List.head?_cons]

/-- Witness for `palette_primary_is_input` at the canonical input "#3B82F6". -/
theorem palette_primary_is_input_witness :
    (generatePaletteFromBase (jstr (r"#3B82F6"))).head? =
      some ⟨jstr (r"#3B82F6"), jstr (r"Primary"), Role.primary⟩ :=
  palette_primary_is_input (jstr (r"#3B82F6")) ⟨59, 130, 246⟩ (by decide)

/-- C5: for every accepted input, `generateShades` maps exactly the fixed
12-value lightness schedule [95, 85, 75, 65, 55, 45, 35, 25, 20, 15, 10, 5],
in that order, through `hslToRgb` (hue and saturation of the decoded color
held fixed) and `rgbToHex`; the output always has length 12. -/
theorem generateShades_schedule (s : List ℕ) (rgb : Rgb) (h : hexToRgb s = some rgb) :
    generateShades s =
      lightnessValues.map (fun lightness =>
        let hsl := rgbToHsl (rgb.r : ℚ) (rgb.g : ℚ) (rgb.b : ℚ)
        let c := hslToRgb (hsl.h : ℚ) (hsl.s : ℚ) lightness
        rgbToHex (c.r : ℚ) (c.g : ℚ) (c.b : ℚ)) ∧
    lightnessValues = [95, 85, 75, 65, 55, 45, 35, 25, 20, 15, 10, 5] ∧
    (generateShades s).length = 12 := by
  refine ⟨?_, rfl, ?_⟩
  · simp only [generateShades, h]
  · simp only [generateShades, h, List.length_map]
    rfl

/-- Witness for `generateShades_schedule` at the input "#FF0000". -/
theorem generateShades_schedule_witness :
    generateShades (jstr (r"#FF0000")) =
      lightnessValues.map (fun lightness =>
        let hsl := rgbToHsl (((255 : ℤ) : ℚ)) (((0 : ℤ) : ℚ)) (((0 : ℤ) : ℚ))
        let c := hslToRgb (hsl.h : ℚ) (hsl.s : ℚ) lightness
        rgbToHex (c.r : ℚ) (c.g : ℚ) (c.b : ℚ)) ∧
    lightnessValues = [95, 85, 75, 65, 55, 45, 35, 25, 20, 15, 10, 5] ∧
    (generateShades (jstr (r"#FF0000"))).length = 12 :=
  generateShades_schedule (jstr (r"#FF0000")) ⟨255, 0, 0⟩ (by decide)

/-- C6: for every accepted input, the second palette entry is the accent: the
hex of `hslToRgb` at hue (h + 180) mod 360 with the base saturation and
lightness unchanged. -/
theorem palette_accent_complementary (s : List ℕ) (rgb : Rgb) (h : hexToRgb s = some rgb) :
    (generatePaletteFromBase s)[1]? =
      some ⟨(let hsl := rgbToHsl (rgb.r : ℚ) (rgb.g : ℚ) (rgb.b : ℚ)
             let c := hslToRgb ((((hsl.h + 180) % 360 : ℤ) : ℚ)) (hsl.s : ℚ) (hsl.l : ℚ)
             rgbToHex (c.r : ℚ) (c.g : ℚ) (c.b : ℚ)),
            jstr (r"Accent"), Role.accent⟩ := by
  simp only [generatePaletteFromBase, h]
  rfl

/-- Witness for `palette_accent_complementary` at "#FF0000" (HSL 0/100/50):
the accent is "#00FFFF", complementary cyan. -/
theorem palette_accent_complementary_witness :
    (generatePaletteFromBase (jstr (r"#FF0000")))[1]? =
      some ⟨jstr (r"#00FFFF"), jstr (r"Accent"), Role.accent⟩ := by
  rw [palette_accent_complementary (jstr (r"#FF0000")) ⟨255, 0, 0⟩ (by decide)]
  decide

/-- C7: on every input rejected by the normalizer, each decode-facing function
returns its sentinel: `hexToRgb` null, `getColorBrightness` dark,
`generateShades` the empty list, and `generatePaletteFromBase` the fixed
fallback palette with roles primary/accent/background/text/other in order. -/
theorem invalid_input_fallbacks (s : List ℕ) (h : normalizeHex s = none) :
    hexToRgb s = none ∧ getColorBrightness s = Brightness.dark ∧
    generateShades s = [] ∧
    generatePaletteFromBase s =
      [⟨jstr (r"#3B82F6"), jstr (r"Primary"), Role.primary⟩,
       ⟨jstr (r"#10B981"), jstr (r"Accent"), Role.accent⟩,
       ⟨jstr (r"#F9FAFB"), jstr (r"Light Background"), Role.background⟩,
       ⟨jstr (r"#1F2937"), jstr (r"Dark Text"), Role.text⟩,
       ⟨jstr (r"#6366F1"), jstr (r"Secondary"), Role.other⟩] := by
  have hx : hexToRgb s = none := by simp only [hexToRgb, h]
  refine ⟨hx, ?_, ?_, ?_⟩
  · simp only [getColorBrightness, hx]
  · simp only [generateShades, hx]
  · simp only [generatePaletteFromBase, hx]

/-- Witness for `invalid_input_fallbacks` at the invalid input "xyz". -/
theorem invalid_input_fallbacks_witness :
    hexToRgb (jstr (r"xyz")) = none ∧
    getColorBrightness (jstr (r"xyz")) = Brightness.dark ∧
    generateShades (jstr (r"xyz")) = [] ∧
    generatePaletteFromBase (jstr (r"xyz")) =
      [⟨jstr (r"#3B82F6"), jstr (r"Primary"), Role.primary⟩,
       ⟨jstr (r"#10B981"), jstr (r"Accent"), Role.accent⟩,
       ⟨jstr (r"#F9FAFB"), jstr (r"Light Background"), Role.background⟩,
       ⟨jstr (r"#1F2937"), jstr (r"Dark Text"), Role.text⟩,
       ⟨jstr (r"#6366F1"), jstr (r"Secondary"), Role.other⟩] :=
  invalid_input_fallbacks (jstr (r"xyz")) (by decide)

/-- C8: the claim that the exact rational luminance decides brightness with
ties classifying dark is refuted at "#DA3AF8" (RGB (218, 58, 248)): the exact
luminance is exactly 1/2 — not strictly greater — yet the program's
double-precision evaluation rounds it to 1/2 + 2⁻⁵³ and answers light. -/
theorem getColorBrightness_exact_tie_counterexample :
    hexToRgb (jstr (r"#DA3AF8")) = some ⟨218, 58, 248⟩ ∧
    (0.299 * ((218 : ℤ) : ℚ) + 0.587 * ((58 : ℤ) : ℚ) + 0.114 * ((248 : ℤ) : ℚ)) / 255 = 1/2 ∧
    ¬ ((0.299 * ((218 : ℤ) : ℚ) + 0.587 * ((58 : ℤ) : ℚ) + 0.114 * ((248 : ℤ) : ℚ)) / 255 > 1/2) ∧
    getColorBrightness (jstr (r"#DA3AF8")) = Brightness.light := by
  refine ⟨by decide, by decide, by decide, by decide⟩

/-- C8 (amended): for every accepted input, `getColorBrightness` answers light
exactly when the double-precision evaluation of the luminance expression
strictly exceeds 1/2, and dark otherwise; when the exact rational luminance is
exactly 1/2 the floating-point rounding decides the outcome, and it can land
on either side of the threshold. -/
theorem getColorBrightness_double_threshold (s : List ℕ) (rgb : Rgb)
    (h : hexToRgb s = some rgb) :
    (getColorBrightness s = Brightness.light ↔ dblLuminance rgb.r rgb.g rgb.b > 1/2) ∧
    (getColorBrightness s = Brightness.dark ↔ ¬ (dblLuminance rgb.r rgb.g rgb.b > 1/2)) := by
  simp only [getColorBrightness, h]
  split
  next hl =>
    simp [hl]
    linarith
  next hl =>
    simp [hl]
    linarith

/-- Witness for `getColorBrightness_double_threshold`: "#FFFFFF" classifies
light and "#000000" dark; at the tie input "#DA3AF8" the double luminance is
exactly 1/2 + 2⁻⁵³, so it classifies light. -/
theorem getColorBrightness_double_threshold_witness :
    ((getColorBrightness (jstr (r"#FFFFFF")) = Brightness.light ↔
      dblLuminance 255 255 255 > 1/2) ∧
     (getColorBrightness (jstr (r"#FFFFFF")) = Brightness.dark ↔
      ¬ (dblLuminance 255 255 255 > 1/2))) ∧
    getColorBrightness (jstr (r"#FFFFFF")) = Brightness.light ∧
    getColorBrightness (jstr (r"#000000")) = Brightness.dark ∧
    getColorBrightness (jstr (r"#DA3AF8")) = Brightness.light ∧
    dblLuminance 218 58 248 = 1/2 + 1/2^53 :=
  ⟨getColorBrightness_double_threshold (jstr (r"#FFFFFF")) ⟨255, 255, 255⟩ (by decide),
   by decide, by decide, by decide, by decide⟩

end Verification

end VibePalette
